import Mathlib

/-!
# tensorrt_onnx_image_process: a shallow embedding of the inference pipeline

The program (`src/tensorrt_onnx_image_process.cpp`) compiles an ONNX model
into a TensorRT engine (`onnxToTRTModel`), deserialises it and runs one
inference (`doInference`, called from `main`).

The embedding records, for each function, the sequence of library calls it
issues (a trace of `Event`s) and the way its run ends (an `Outcome`).  The
results of the library calls are inputs of the model (`CudaEnv`,
`CompileEnv`, `MainEnv`).  Assertions are modelled as active (no `NDEBUG`).
-/

namespace TensorrtOnnx

/-! ## Constants (source lines 17-19) -/

/-- Source line 17: `static const int INPUT_H = 1800;` -/
def INPUT_H : Int := 1800

/-- Source line 18: `static const int INPUT_W = 128;` -/
def INPUT_W : Int := 128

/-- Source line 19: `static const int OUTPUT_SIZE = INPUT_H* INPUT_W;` -/
def OUTPUT_SIZE : Int := INPUT_H * INPUT_W

/-! ## The engine, as far as the program looks at it -/

/-- An `ICudaEngine` as the program observes it: the role of each binding,
in binding order (`true` for an input binding). -/
structure ICudaEngine where
  roles : List Bool
deriving DecidableEq, Repr

/-- The call `engine.getNbBindings()`. -/
def getNbBindings (engine : ICudaEngine) : Nat :=
  engine.roles.length

/-- The call `engine.bindingIsInput(b)`. -/
def bindingIsInput (engine : ICudaEngine) (b : Nat) : Bool :=
  engine.roles.getD b false

/-! ## The binding scan of `doInference` (source lines 90-97) -/

/-- The two locals `int inputIndex, outputIndex;` of line 90.  They are
declared without an initialiser: `none` stands for a variable that has not
been assigned. -/
structure ScanState where
  inputIndex : Option Nat
  outputIndex : Option Nat
deriving DecidableEq, Repr

/-- The body of the loop, lines 93-96:
`if (engine.bindingIsInput(b)) inputIndex = b; else outputIndex = b;` -/
def scanStep (engine : ICudaEngine) (st : ScanState) (b : Nat) : ScanState :=
  if bindingIsInput engine b then
    ⟨some b, st.outputIndex⟩
  else
    ⟨st.inputIndex, some b⟩

/-- The loop run for `b = 0, 1, ..., n - 1`, starting from unassigned
locals. -/
def scanUpTo (engine : ICudaEngine) (n : Nat) : ScanState :=
  (List.range n).foldl (scanStep engine) ⟨none, none⟩

/-- Lines 90-97: `for (int b = 0; b < engine.getNbBindings(); ++b) ...`. -/
def scanBindings (engine : ICudaEngine) : ScanState :=
  scanUpTo engine (getNbBindings engine)

/-! ## Byte counts (source lines 100, 101, 107, 109) -/

/-- The value of a 32-bit `int` expression: the mathematical result reduced
to the range `[-2^31, 2^31)`. -/
def wrapInt32 (x : Int) : Int :=
  (x + 2 ^ 31) % 2 ^ 32 - 2 ^ 31

/-- Conversion of an `int` to `size_t` (64 bits, unsigned). -/
def toSizeT (x : Int) : Nat :=
  (x % 2 ^ 64).toNat

/-- Multiplication in `size_t`. -/
def mulSizeT (a b : Nat) : Nat :=
  (a * b) % 2 ^ 64

/-- The value of `sizeof(float)`. -/
def sizeofFloat : Nat := 4

/-- Lines 100 and 107: `batchSize * INPUT_H * INPUT_W * sizeof(float)`.
The first two products are `int` products, the last one is taken in
`size_t`. -/
def inputBytes (batchSize : Int) : Nat :=
  mulSizeT (toSizeT (wrapInt32 (wrapInt32 (batchSize * INPUT_H) * INPUT_W))) sizeofFloat

/-- Lines 101 and 109: `batchSize * OUTPUT_SIZE * sizeof(float)`. -/
def outputBytes (batchSize : Int) : Nat :=
  mulSizeT (toSizeT (wrapInt32 (batchSize * OUTPUT_SIZE))) sizeofFloat

/-! ## Traces -/

/-- The library calls the program issues.  A call whose result the program
could look at carries that result: a `cudaError_t` status (`0` is
`cudaSuccess`) or a boolean.  A buffer is named by its slot in the local
array `void* buffers[2]`. -/
inductive Event where
  | createInferBuilder
  | createNetwork
  | createParser
  | locateFile (found : Bool)
  | parseFromFile (ok : Bool)
  | logError
  | setMaxBatchSize (n : Nat)
  | setMaxWorkspaceSize (n : Nat)
  | enableDLA (core : Int)
  | buildCudaEngine (ok : Bool)
  | parserDestroy
  | engineSerialize
  | engineDestroy
  | networkDestroy
  | builderDestroy
  | cudaMalloc (slot : Nat) (bytes : Nat) (status : Nat)
  | cudaStreamCreate (status : Nat)
  | cudaMemcpyHostToDevice (slot : Nat) (bytes : Nat) (status : Nat)
  | enqueue (batchSize : Int) (accepted : Bool)
  | cudaMemcpyDeviceToHost (slot : Nat) (bytes : Nat) (status : Nat)
  | cudaStreamSynchronize (status : Nat)
  | cudaStreamDestroy (status : Nat)
  | cudaFree (slot : Nat) (status : Nat)
  | hostFileRead
  | hostFileWrite
  | createInferRuntime (ok : Bool)
  | setDLACore (core : Int)
  | deserializeCudaEngine (ok : Bool)
  | printBinding (bi : Nat) (isInput : Bool)
  | getNbLayers
  | modelStreamDestroy
  | createExecutionContext (ok : Bool)
  | callDoInference
  | contextDestroy
  | runtimeDestroy
deriving DecidableEq, Repr

/-- How a run ends. -/
inductive Outcome where
  /-- The function returned to its caller. -/
  | returned
  /-- An `assert` failed. -/
  | assertFailed
  /-- A `CHECK` saw a status other than `cudaSuccess`. -/
  | checkFailed
  /-- The program called `exit(EXIT_FAILURE)`. -/
  | exited
  /-- The model file was not found by `locateFile`. -/
  | notFound
  /-- A local `int` was read before any assignment to it (the behaviour of
  the program is undefined from there on). -/
  | unassignedIndex
deriving DecidableEq, Repr

/-- A run: the calls issued, in order, and the way the run ended. -/
structure Run where
  trace : List Event
  outcome : Outcome
deriving DecidableEq, Repr

/-- The run that issues nothing and ends with `o`. -/
def Run.stop (o : Outcome) : Run :=
  ⟨[], o⟩

/-- The run that issues `ev` and goes on as `rest`. -/
def Run.emit (ev : Event) (rest : Run) : Run :=
  ⟨ev :: rest.trace, rest.outcome⟩

/-- Sequencing: `rest` runs only if `r` returned. -/
def Run.andThen (r : Run) (rest : Run) : Run :=
  if r.outcome = Outcome.returned then ⟨r.trace ++ rest.trace, rest.outcome⟩ else r

/-- Modelled from the spec: the macro `CHECK` of `common.h` is not among the
sources.  The spec has a failed device call end the call and propagate to
the driver, which aborts the run: the call is issued, and a status other
than `0` ends the run there. -/
def CHECK (call : Nat → Event) (status : Nat) (rest : Run) : Run :=
  if status = 0 then Run.emit (call status) rest
  else Run.emit (call status) (Run.stop Outcome.checkFailed)

/-! ## `doInference` (source lines 80-116) -/

/-- The results of the runtime calls of one `doInference` call, in the
order of the source. -/
structure CudaEnv where
  mallocInput : Nat
  mallocOutput : Nat
  streamCreate : Nat
  memcpyInput : Nat
  enqueueAccepted : Bool
  memcpyOutput : Nat
  streamSynchronize : Nat
  streamDestroy : Nat
  freeInput : Nat
  freeOutput : Nat
deriving DecidableEq, Repr

/-- Every runtime call succeeds. -/
def CudaEnv.allSucceed : CudaEnv :=
  ⟨0, 0, 0, 0, true, 0, 0, 0, 0, 0⟩

/-- Lines 80-116.  `engine` is `context.getEngine()`; the host buffers
`input` and `output` do not influence the calls issued. -/
def doInference (engine : ICudaEngine) (env : CudaEnv) (batchSize : Int) : Run :=
  -- line 85: assert(engine.getNbBindings() == 2);
  if getNbBindings engine ≠ 2 then Run.stop Outcome.assertFailed else
  -- lines 90-97
  let st := scanBindings engine
  -- line 100
  match st.inputIndex with
  | none => Run.stop Outcome.unassignedIndex
  | some inputIndex =>
    CHECK (Event.cudaMalloc inputIndex (inputBytes batchSize)) env.mallocInput <|
    -- line 101
    match st.outputIndex with
    | none => Run.stop Outcome.unassignedIndex
    | some outputIndex =>
      CHECK (Event.cudaMalloc outputIndex (outputBytes batchSize)) env.mallocOutput <|
      -- line 104
      CHECK Event.cudaStreamCreate env.streamCreate <|
      -- line 107
      CHECK (Event.cudaMemcpyHostToDevice inputIndex (inputBytes batchSize)) env.memcpyInput <|
      -- line 108: the result of enqueue is not looked at
      Run.emit (Event.enqueue batchSize env.enqueueAccepted) <|
      -- line 109
      CHECK (Event.cudaMemcpyDeviceToHost outputIndex (outputBytes batchSize)) env.memcpyOutput <|
      -- line 110
      Run.emit (Event.cudaStreamSynchronize env.streamSynchronize) <|
      -- line 113
      Run.emit (Event.cudaStreamDestroy env.streamDestroy) <|
      -- lines 114, 115
      CHECK (Event.cudaFree inputIndex) env.freeInput <|
      CHECK (Event.cudaFree outputIndex) env.freeOutput <|
      Run.stop Outcome.returned

/-! ## `onnxToTRTModel` (source lines 39-78) -/

/-- Source line 27: the search directories. -/
def directories : List String :=
  ["data/samples/mnist/", "data/mnist/"]

/-- Modelled from the spec: the two-argument `locateFile` of `common.h` is
not among the sources.  The spec resolves the path against the ordered list
of search directories, the first existing candidate wins, and there is no
result when no candidate exists. -/
def locateFile (fileExists : String → Bool) (input : String)
    (dirs : List String) : Option String :=
  (dirs.map (fun dir => dir ++ input)).find? fileExists

/-- The results of the calls of one `onnxToTRTModel` call: which files
exist, whether the parser accepts the file, whether the builder produces an
engine. -/
structure CompileEnv where
  fileExists : String → Bool
  parseOk : Bool
  buildOk : Bool

/-- Lines 39-78.  `dlaCore` is the global `gUseDLACore`.  The three
creation calls of lines 46-49 are not checked by the source and are taken
to produce their objects. -/
def onnxToTRTModel (env : CompileEnv) (modelFile : String) (maxBatchSize : Nat)
    (dlaCore : Int) : Run :=
  -- lines 46, 47, 49
  Run.emit Event.createInferBuilder <|
  Run.emit Event.createNetwork <|
  Run.emit Event.createParser <|
  -- line 55: the argument locateFile(modelFile, directories) is evaluated first
  match locateFile env.fileExists modelFile directories with
  | none => Run.emit (Event.locateFile false) (Run.stop Outcome.notFound)
  | some _ =>
    Run.emit (Event.locateFile true) <|
    Run.emit (Event.parseFromFile env.parseOk) <|
    if env.parseOk = false then
      -- lines 57-59
      Run.emit Event.logError (Run.stop Outcome.exited)
    else
      -- lines 63-67
      Run.emit (Event.setMaxBatchSize maxBatchSize) <|
      Run.emit (Event.setMaxWorkspaceSize (1 <<< 20)) <|
      Run.emit (Event.enableDLA dlaCore) <|
      Run.emit (Event.buildCudaEngine env.buildOk) <|
      -- line 68: assert(engine);
      if env.buildOk = false then Run.stop Outcome.assertFailed else
      -- lines 71-77
      Run.emit Event.parserDestroy <|
      Run.emit Event.engineSerialize <|
      Run.emit Event.engineDestroy <|
      Run.emit Event.networkDestroy <|
      Run.emit Event.builderDestroy <|
      Run.stop Outcome.returned

/-! ## `main` (source lines 119-188) -/

/-- The inputs of one run of `main`: the DLA core read from the command
line, the results of the library calls, and the engine that
`deserializeCudaEngine` produces (`none` for a null pointer). -/
structure MainEnv where
  dlaCore : Int
  compile : CompileEnv
  modelStreamOk : Bool
  runtimeOk : Bool
  engine : Option ICudaEngine
  contextOk : Bool
  cuda : CudaEnv

/-- Source line 124: the model file name passed by `main`. -/
def modelFileName : String := "beamformer_v7.onnx"

/-- Lines 153-166: one report per binding, in binding order. -/
def printBindings (engine : ICudaEngine) : List Event :=
  (List.range (getNbBindings engine)).map
    (fun bi => Event.printBinding bi (bindingIsInput engine bi))

/-- The run that issues the events of `evs` and goes on as `rest`. -/
def Run.emitAll (evs : List Event) (rest : Run) : Run :=
  ⟨evs ++ rest.trace, rest.outcome⟩

/-- Lines 119-188.  The host file calls of lines 131-138 and 178-180 are
recorded and taken to succeed; their results do not influence the calls
that follow. -/
def main (env : MainEnv) : Run :=
  -- line 124
  Run.andThen (onnxToTRTModel env.compile modelFileName 1 env.dlaCore) <|
  -- line 125: assert(trtModelStream != nullptr);
  if env.modelStreamOk = false then Run.stop Outcome.assertFailed else
  -- lines 129-138: the input file is read and written back
  Run.emit Event.hostFileRead <|
  Run.emit Event.hostFileWrite <|
  -- lines 141, 142
  Run.emit (Event.createInferRuntime env.runtimeOk) <|
  if env.runtimeOk = false then Run.stop Outcome.assertFailed else
  -- lines 143-146
  Run.emitAll (if env.dlaCore ≥ 0 then [Event.setDLACore env.dlaCore] else []) <|
  -- lines 148, 149
  Run.emit (Event.deserializeCudaEngine env.engine.isSome) <|
  match env.engine with
  | none => Run.stop Outcome.assertFailed
  | some engine =>
    -- lines 151-168
    Run.emitAll (printBindings engine) <|
    Run.emit Event.getNbLayers <|
    -- lines 171-173
    Run.emit Event.modelStreamDestroy <|
    Run.emit (Event.createExecutionContext env.contextOk) <|
    if env.contextOk = false then Run.stop Outcome.assertFailed else
    -- line 176
    Run.emit Event.callDoInference <|
    Run.andThen (doInference engine env.cuda 1) <|
    -- lines 178-187
    Run.emit Event.hostFileWrite <|
    Run.emit Event.contextDestroy <|
    Run.emit Event.engineDestroy <|
    Run.emit Event.runtimeDestroy <|
    Run.stop Outcome.returned

/-! ## Notions used in the statements -/

/-- The slot of `buffers` an event refers to, if it refers to one. -/
def Event.slot : Event → Option Nat
  | Event.cudaMalloc s _ _ => some s
  | Event.cudaMemcpyHostToDevice s _ _ => some s
  | Event.cudaMemcpyDeviceToHost s _ _ => some s
  | Event.cudaFree s _ => some s
  | _ => none

/-- The calls of a complete `doInference` run with input slot `i` and output
slot `o`, in the order of lines 100-115. -/
def inferenceCalls (i o : Nat) (env : CudaEnv) (batchSize : Int) : List Event :=
  [Event.cudaMalloc i (inputBytes batchSize) env.mallocInput,
   Event.cudaMalloc o (outputBytes batchSize) env.mallocOutput,
   Event.cudaStreamCreate env.streamCreate,
   Event.cudaMemcpyHostToDevice i (inputBytes batchSize) env.memcpyInput,
   Event.enqueue batchSize env.enqueueAccepted,
   Event.cudaMemcpyDeviceToHost o (outputBytes batchSize) env.memcpyOutput,
   Event.cudaStreamSynchronize env.streamSynchronize,
   Event.cudaStreamDestroy env.streamDestroy,
   Event.cudaFree i env.freeInput,
   Event.cudaFree o env.freeOutput]

/-- Whether the event is a `cudaFree`. -/
def Event.isFree : Event → Bool
  | Event.cudaFree _ _ => true
  | _ => false

/-- Whether the event is a `cudaMalloc`. -/
def Event.isMalloc : Event → Bool
  | Event.cudaMalloc _ _ _ => true
  | _ => false

/-- The byte count of an allocation or copy. -/
def Event.bytes : Event → Option Nat
  | Event.cudaMalloc _ n _ => some n
  | Event.cudaMemcpyHostToDevice _ n _ => some n
  | Event.cudaMemcpyDeviceToHost _ n _ => some n
  | _ => none

/-- The runtime answers in which every call succeeds but `enqueue` is
rejected. -/
def enqueueRejected : CudaEnv :=
  ⟨0, 0, 0, 0, false, 0, 0, 0, 0, 0⟩

/-- The environment `env` with the answer of `enqueue` replaced. -/
def CudaEnv.withEnqueue (env : CudaEnv) (accepted : Bool) : CudaEnv :=
  ⟨env.mallocInput, env.mallocOutput, env.streamCreate, env.memcpyInput, accepted,
    env.memcpyOutput, env.streamSynchronize, env.streamDestroy, env.freeInput,
    env.freeOutput⟩

/-- The event with the answer of `enqueue` replaced by a rejection. -/
def Event.rejectEnqueue : Event → Event
  | Event.enqueue b _ => Event.enqueue b false
  | ev => ev

/-- A run of `main` in which every library call succeeds and
`deserializeCudaEngine` produces `engine`; no DLA core is selected. -/
def mainEnvWith (engine : ICudaEngine) : MainEnv :=
  ⟨-1, ⟨fun _ => true, true, true⟩, true, true, some engine, true, CudaEnv.allSucceed⟩

/-- No file exists. -/
def noFiles : CompileEnv :=
  ⟨fun _ => false, true, true⟩

/-- The model file exists and the parser rejects it. -/
def parserRejects : CompileEnv :=
  ⟨fun _ => true, false, true⟩

/-! ## Facts about the binding scan -/

theorem scanUpTo_zero (engine : ICudaEngine) :
    scanUpTo engine 0 = ⟨none, none⟩ := by
  simp [scanUpTo]

theorem scanUpTo_succ (engine : ICudaEngine) (n : Nat) :
    scanUpTo engine (n + 1) = scanStep engine (scanUpTo engine n) n := by
  simp [scanUpTo, List.range_succ, List.foldl_append]

/-- After `n` rounds `inputIndex` holds `k` exactly when `k` is the greatest
index below `n` whose binding is an input. -/
theorem scanUpTo_inputIndex (engine : ICudaEngine) (n k : Nat) :
    (scanUpTo engine n).inputIndex = some k ↔
      k < n ∧ bindingIsInput engine k = true ∧
        ∀ j, k < j → j < n → bindingIsInput engine j = false := by
  induction n with
  | zero => simp [scanUpTo_zero]
  | succ n ih =>
    rw [scanUpTo_succ]
    unfold scanStep
    by_cases hn : bindingIsInput engine n = true
    · simp only [hn, if_true, Option.some.injEq]
      constructor
      · intro h
        subst h
        exact ⟨Nat.lt_succ_self _, hn, fun j h1 h2 => absurd h1 (by omega)⟩
      · rintro ⟨h1, _, h3⟩
        by_contra hne
        have hlt : k < n := by omega
        have := h3 n hlt (Nat.lt_succ_self _)
        simp [hn] at this
    · have hn' : bindingIsInput engine n = false := by simpa using hn
      simp only [hn', Bool.false_eq_true, if_false]
      rw [ih]
      constructor
      · rintro ⟨h1, h2, h3⟩
        refine ⟨by omega, h2, fun j hj1 hj2 => ?_⟩
        by_cases hjn : j = n
        · subst hjn; exact hn'
        · exact h3 j hj1 (by omega)
      · rintro ⟨h1, h2, h3⟩
        have hkn : k ≠ n := by
          intro h; subst h; simp [hn'] at h2
        exact ⟨by omega, h2, fun j hj1 hj2 => h3 j hj1 (by omega)⟩

/-- After `n` rounds `outputIndex` holds `k` exactly when `k` is the
greatest index below `n` whose binding is not an input. -/
theorem scanUpTo_outputIndex (engine : ICudaEngine) (n k : Nat) :
    (scanUpTo engine n).outputIndex = some k ↔
      k < n ∧ bindingIsInput engine k = false ∧
        ∀ j, k < j → j < n → bindingIsInput engine j = true := by
  induction n with
  | zero => simp [scanUpTo_zero]
  | succ n ih =>
    rw [scanUpTo_succ]
    unfold scanStep
    by_cases hn : bindingIsInput engine n = true
    · simp only [hn, if_true]
      rw [ih]
      constructor
      · rintro ⟨h1, h2, h3⟩
        refine ⟨by omega, h2, fun j hj1 hj2 => ?_⟩
        by_cases hjn : j = n
        · subst hjn; exact hn
        · exact h3 j hj1 (by omega)
      · rintro ⟨h1, h2, h3⟩
        have hkn : k ≠ n := by
          intro h; subst h; simp [hn] at h2
        exact ⟨by omega, h2, fun j hj1 hj2 => h3 j hj1 (by omega)⟩
    · have hn' : bindingIsInput engine n = false := by simpa using hn
      simp only [hn', Bool.false_eq_true, if_false, Option.some.injEq]
      constructor
      · intro h
        subst h
        exact ⟨Nat.lt_succ_self _, hn', fun j h1 h2 => absurd h1 (by omega)⟩
      · rintro ⟨h1, _, h3⟩
        by_contra hne
        have hlt : k < n := by omega
        have := h3 n hlt (Nat.lt_succ_self _)
        simp [hn'] at this

/-- After `n` rounds `inputIndex` is unassigned exactly when no binding
below `n` is an input. -/
theorem scanUpTo_inputIndex_none (engine : ICudaEngine) (n : Nat) :
    (scanUpTo engine n).inputIndex = none ↔
      ∀ j, j < n → bindingIsInput engine j = false := by
  induction n with
  | zero => simp [scanUpTo_zero]
  | succ n ih =>
    rw [scanUpTo_succ]
    unfold scanStep
    by_cases hn : bindingIsInput engine n = true
    · simp only [hn, if_true]
      constructor
      · intro h; simp at h
      · intro h
        have := h n (Nat.lt_succ_self _)
        simp [hn] at this
    · have hn' : bindingIsInput engine n = false := by simpa using hn
      simp only [hn', Bool.false_eq_true, if_false]
      rw [ih]
      constructor
      · intro h j hj
        by_cases hjn : j = n
        · subst hjn; exact hn'
        · exact h j (by omega)
      · intro h j hj
        exact h j (by omega)

/-- After `n` rounds `outputIndex` is unassigned exactly when every binding
below `n` is an input. -/
theorem scanUpTo_outputIndex_none (engine : ICudaEngine) (n : Nat) :
    (scanUpTo engine n).outputIndex = none ↔
      ∀ j, j < n → bindingIsInput engine j = true := by
  induction n with
  | zero => simp [scanUpTo_zero]
  | succ n ih =>
    rw [scanUpTo_succ]
    unfold scanStep
    by_cases hn : bindingIsInput engine n = true
    · simp only [hn, if_true]
      rw [ih]
      constructor
      · intro h j hj
        by_cases hjn : j = n
        · subst hjn; exact hn
        · exact h j (by omega)
      · intro h j hj
        exact h j (by omega)
    · have hn' : bindingIsInput engine n = false := by simpa using hn
      simp only [hn', Bool.false_eq_true, if_false]
      constructor
      · intro h; simp at h
      · intro h
        have := h n (Nat.lt_succ_self _)
        simp [hn'] at this

/-- C10: for a sequence of binding roles of any length `n`, the scan loop
of `doInference` retains the last match.  `inputIndex` ends as `k` exactly
when `k` is the greatest index below `n` whose binding is an input, and
`outputIndex` ends as `k` exactly when `k` is the greatest index below `n`
whose binding is not an input; a variable is left unassigned exactly when no
binding of its role exists. -/
theorem scanBindings_retains_last_match (engine : ICudaEngine) :
    (∀ k, (scanBindings engine).inputIndex = some k ↔
      k < getNbBindings engine ∧ bindingIsInput engine k = true ∧
        ∀ j, k < j → j < getNbBindings engine → bindingIsInput engine j = false) ∧
    (∀ k, (scanBindings engine).outputIndex = some k ↔
      k < getNbBindings engine ∧ bindingIsInput engine k = false ∧
        ∀ j, k < j → j < getNbBindings engine → bindingIsInput engine j = true) ∧
    ((scanBindings engine).inputIndex = none ↔
      ∀ j, j < getNbBindings engine → bindingIsInput engine j = false) ∧
    ((scanBindings engine).outputIndex = none ↔
      ∀ j, j < getNbBindings engine → bindingIsInput engine j = true) :=
  ⟨scanUpTo_inputIndex engine _, scanUpTo_outputIndex engine _,
    scanUpTo_inputIndex_none engine _, scanUpTo_outputIndex_none engine _⟩

/-- Witness for C10: with two input bindings followed by an output binding
the scan keeps the second input and drops the first; with two input bindings
and no output binding `outputIndex` is never assigned. -/
theorem scanBindings_retains_last_match_witness :
    (scanBindings ⟨[true, true, false]⟩).inputIndex = some 1 ∧
    (scanBindings ⟨[true, true, false]⟩).outputIndex = some 2 ∧
    (scanBindings ⟨[true, true]⟩).outputIndex = none :=
  ⟨((scanBindings_retains_last_match ⟨[true, true, false]⟩).1 1).mpr
      ⟨by decide, by decide, fun j h1 h2 => by
        have h3 : j < 3 := h2
        have hj : j = 2 := by omega
        subst hj
        rfl⟩,
   ((scanBindings_retains_last_match ⟨[true, true, false]⟩).2.1 2).mpr
      ⟨by decide, by decide, fun j h1 h2 => by
        have h3 : j < 3 := h2
        omega⟩,
   ((scanBindings_retains_last_match ⟨[true, true]⟩).2.2.2).mpr (by decide)⟩

/-! ## Facts about `doInference` -/

/-- An index the scan assigns is below the binding count. -/
theorem scanBindings_inputIndex_lt (engine : ICudaEngine) (i : Nat)
    (h : (scanBindings engine).inputIndex = some i) : i < getNbBindings engine :=
  ((scanUpTo_inputIndex engine _ i).mp h).1

theorem scanBindings_outputIndex_lt (engine : ICudaEngine) (o : Nat)
    (h : (scanBindings engine).outputIndex = some o) : o < getNbBindings engine :=
  ((scanUpTo_outputIndex engine _ o).mp h).1

/-- Whatever the runtime answers, the calls issued by `doInference` form a
beginning of `inferenceCalls` for the indices the scan assigned. -/
theorem doInference_trace_prefix (engine : ICudaEngine) (env : CudaEnv) (batchSize : Int) :
    (doInference engine env batchSize).trace = [] ∨
    ∃ i, (scanBindings engine).inputIndex = some i ∧ getNbBindings engine = 2 ∧
      ((doInference engine env batchSize).trace =
          [Event.cudaMalloc i (inputBytes batchSize) env.mallocInput] ∨
       ∃ o, (scanBindings engine).outputIndex = some o ∧
        (doInference engine env batchSize).trace <+: inferenceCalls i o env batchSize) := by
  unfold doInference
  by_cases hn : getNbBindings engine = 2
  · simp only [hn, ne_eq, not_true_eq_false, if_false]
    cases hI : (scanBindings engine).inputIndex with
    | none => left; simp [Run.stop]
    | some i =>
      right
      refine ⟨i, rfl, trivial, ?_⟩
      cases hO : (scanBindings engine).outputIndex with
      | none =>
        left
        simp only [CHECK, Run.emit, Run.stop]
        split_ifs <;> rfl
      | some o =>
        by_cases h1 : env.mallocInput = 0
        · right
          refine ⟨o, rfl, ?_⟩
          simp only [CHECK, Run.emit, Run.stop, inferenceCalls, h1, if_true]
          split_ifs <;> simp [List.prefix_cons_inj, List.nil_prefix, *]
        · left
          simp [CHECK, Run.emit, Run.stop, h1]
  · left
    simp [hn, Run.stop]

/-- Every slot of `buffers` that a call of `doInference` refers to is `0`
or `1`. -/
theorem doInference_slot_lt (engine : ICudaEngine) (env : CudaEnv) (batchSize : Int)
    (ev : Event) (hev : ev ∈ (doInference engine env batchSize).trace)
    (s : Nat) (hs : ev.slot = some s) : s < 2 := by
  rcases doInference_trace_prefix engine env batchSize with h | ⟨i, hi, hn, h | ⟨o, ho, h⟩⟩
  · rw [h] at hev; simp at hev
  · have hlt := scanBindings_inputIndex_lt engine i hi
    rw [h] at hev
    simp only [List.mem_singleton] at hev
    subst hev
    simp only [Event.slot, Option.some.injEq] at hs
    omega
  · have hlt := scanBindings_inputIndex_lt engine i hi
    have hlt' := scanBindings_outputIndex_lt engine o ho
    have hmem := h.subset hev
    simp only [inferenceCalls, List.mem_cons, List.mem_singleton, List.mem_nil_iff,
      or_false] at hmem
    rcases hmem with h | h | h | h | h | h | h | h | h | h <;> subst h <;>
      simp only [Event.slot, Option.some.injEq, reduceCtorEq] at hs <;> omega

/-- The indices the scan assigns are different. -/
theorem scanBindings_indices_ne (engine : ICudaEngine) (i o : Nat)
    (hi : (scanBindings engine).inputIndex = some i)
    (ho : (scanBindings engine).outputIndex = some o) : i ≠ o := by
  have h1 := ((scanUpTo_inputIndex engine _ i).mp hi).2.1
  have h2 := ((scanUpTo_outputIndex engine _ o).mp ho).2.1
  intro h
  subst h
  simp [h1] at h2

/-- A run of `doInference` that returns has assigned both indices, has seen
every checked call succeed, and has issued exactly `inferenceCalls`. -/
theorem doInference_returned (engine : ICudaEngine) (env : CudaEnv) (batchSize : Int)
    (h : (doInference engine env batchSize).outcome = Outcome.returned) :
    ∃ i o, (scanBindings engine).inputIndex = some i ∧
      (scanBindings engine).outputIndex = some o ∧ getNbBindings engine = 2 ∧
      (env.mallocInput = 0 ∧ env.mallocOutput = 0 ∧ env.streamCreate = 0 ∧
        env.memcpyInput = 0 ∧ env.memcpyOutput = 0 ∧ env.freeInput = 0 ∧
        env.freeOutput = 0) ∧
      (doInference engine env batchSize).trace = inferenceCalls i o env batchSize := by
  unfold doInference at h ⊢
  by_cases hn : getNbBindings engine = 2
  · simp only [hn, ne_eq, not_true_eq_false, if_false] at h ⊢
    cases hI : (scanBindings engine).inputIndex with
    | none => simp [hI, Run.stop] at h
    | some i =>
      cases hO : (scanBindings engine).outputIndex with
      | none =>
        simp only [hI, hO, CHECK, Run.emit, Run.stop] at h
        split_ifs at h
      | some o =>
        simp only [hI, hO, CHECK, Run.emit, Run.stop] at h
        split_ifs at h
        refine ⟨i, o, rfl, rfl, trivial, ⟨?_, ?_, ?_, ?_, ?_, ?_, ?_⟩, ?_⟩ <;>
          first
          | assumption
          | simp [CHECK, Run.emit, Run.stop, inferenceCalls, *]
  · simp [hn, Run.stop] at h

/-- With two bindings, both indices assigned and every checked call
succeeding, `doInference` returns. -/
theorem doInference_returns (engine : ICudaEngine) (env : CudaEnv) (batchSize : Int)
    (i o : Nat) (hn : getNbBindings engine = 2)
    (hi : (scanBindings engine).inputIndex = some i)
    (ho : (scanBindings engine).outputIndex = some o)
    (h1 : env.mallocInput = 0) (h2 : env.mallocOutput = 0) (h3 : env.streamCreate = 0)
    (h4 : env.memcpyInput = 0) (h5 : env.memcpyOutput = 0) (h6 : env.freeInput = 0)
    (h7 : env.freeOutput = 0) :
    doInference engine env batchSize = ⟨inferenceCalls i o env batchSize, Outcome.returned⟩ := by
  unfold doInference
  simp [hn, hi, ho, h1, h2, h3, h4, h5, h6, h7, CHECK, Run.emit, Run.stop, inferenceCalls]

/-- An engine with two bindings, one of them an input, has roles
`[true, false]` or `[false, true]`. -/
theorem roles_of_one_input_one_output (engine : ICudaEngine)
    (hn : getNbBindings engine = 2) (hin : engine.roles.count true = 1)
    (hout : engine.roles.count false = 1) :
    engine = ⟨[true, false]⟩ ∨ engine = ⟨[false, true]⟩ := by
  obtain ⟨roles⟩ := engine
  simp only [getNbBindings] at hn
  match roles, hn with
  | [a, b], _ =>
    cases a <;> cases b <;> simp_all

/-- C1: for an engine with exactly two bindings, one with the input role and
one with the output role (in either order), the scan of `doInference` ends
with `inputIndex` the index of the input binding and `outputIndex` the index
of the output binding; the two indices differ, both are `0` or `1`, and every
slot of `buffers` that a call of `doInference` refers to is `0` or `1`. -/
theorem doInference_scan_resolves (engine : ICudaEngine)
    (hn : getNbBindings engine = 2) (hin : engine.roles.count true = 1)
    (hout : engine.roles.count false = 1) :
    ∃ i o, scanBindings engine = ⟨some i, some o⟩ ∧
      bindingIsInput engine i = true ∧ bindingIsInput engine o = false ∧
      (∀ b, b < 2 → bindingIsInput engine b = true → b = i) ∧
      (∀ b, b < 2 → bindingIsInput engine b = false → b = o) ∧
      i ≠ o ∧ i < 2 ∧ o < 2 ∧
      ∀ (env : CudaEnv) (batchSize : Int) (ev : Event),
        ev ∈ (doInference engine env batchSize).trace → ∀ s, ev.slot = some s → s < 2 := by
  rcases roles_of_one_input_one_output engine hn hin hout with h | h <;> subst h
  · refine ⟨0, 1, by decide, by decide, by decide, by decide, by decide, by decide,
      by decide, by decide, fun env batchSize ev hev s hs => ?_⟩
    exact doInference_slot_lt _ env batchSize ev hev s hs
  · refine ⟨1, 0, by decide, by decide, by decide, by decide, by decide, by decide,
      by decide, by decide, fun env batchSize ev hev s hs => ?_⟩
    exact doInference_slot_lt _ env batchSize ev hev s hs

/-- Witness for C1: the engine whose binding 0 is the output and whose
binding 1 is the input. -/
theorem doInference_scan_resolves_witness :
    getNbBindings ⟨[false, true]⟩ = 2 ∧
    ∃ i o, scanBindings ⟨[false, true]⟩ = ⟨some i, some o⟩ ∧
      bindingIsInput ⟨[false, true]⟩ i = true ∧ bindingIsInput ⟨[false, true]⟩ o = false ∧
      (∀ b, b < 2 → bindingIsInput ⟨[false, true]⟩ b = true → b = i) ∧
      (∀ b, b < 2 → bindingIsInput ⟨[false, true]⟩ b = false → b = o) ∧
      i ≠ o ∧ i < 2 ∧ o < 2 ∧
      ∀ (env : CudaEnv) (batchSize : Int) (ev : Event),
        ev ∈ (doInference ⟨[false, true]⟩ env batchSize).trace →
          ∀ s, ev.slot = some s → s < 2 :=
  ⟨by decide, doInference_scan_resolves ⟨[false, true]⟩ (by decide) (by decide) (by decide)⟩

/-! ## Byte counts -/

/-- A value in the range of `int` is not changed by the reduction. -/
theorem wrapInt32_of_range (x : Int) (h1 : -2147483648 ≤ x) (h2 : x < 2147483648) :
    wrapInt32 x = x := by
  unfold wrapInt32
  have h : (x + 2 ^ 31) % 2 ^ 32 = x + 2 ^ 31 :=
    Int.emod_eq_of_lt (by norm_num; omega) (by norm_num; omega)
  rw [h]
  ring

/-- A non-negative `int` keeps its value in `size_t`. -/
theorem toSizeT_of_range (x : Int) (h1 : 0 ≤ x) (h2 : x < 2147483648) :
    (toSizeT x : Int) = x := by
  unfold toSizeT
  have h : x % 2 ^ 64 = x := Int.emod_eq_of_lt h1 (by norm_num; omega)
  rw [h]
  exact Int.toNat_of_nonneg h1

/-- Four times a non-negative `int` fits `size_t`. -/
theorem mulSizeT_sizeofFloat (x : Int) (h1 : 0 ≤ x) (h2 : x < 2147483648) :
    (mulSizeT (toSizeT x) sizeofFloat : Int) = x * 4 := by
  have hx := toSizeT_of_range x h1 h2
  have hlt : toSizeT x * 4 < 2 ^ 64 := by
    have : (toSizeT x : Int) < 2147483648 := by rw [hx]; exact h2
    norm_num
    omega
  unfold mulSizeT sizeofFloat
  rw [Nat.mod_eq_of_lt hlt]
  push_cast
  rw [hx]

theorem inputBytes_eq (b : Int) (h1 : 1 ≤ b) (h2 : b ≤ 9320) :
    (inputBytes b : Int) = b * 921600 := by
  unfold inputBytes INPUT_H INPUT_W
  rw [wrapInt32_of_range (b * 1800) (by omega) (by omega),
    wrapInt32_of_range (b * 1800 * 128) (by omega) (by omega),
    mulSizeT_sizeofFloat (b * 1800 * 128) (by omega) (by omega)]
  ring

theorem outputBytes_eq (b : Int) (h1 : 1 ≤ b) (h2 : b ≤ 9320) :
    (outputBytes b : Int) = b * 921600 := by
  unfold outputBytes OUTPUT_SIZE INPUT_H INPUT_W
  norm_num
  rw [wrapInt32_of_range (b * 230400) (by omega) (by omega),
    mulSizeT_sizeofFloat (b * 230400) (by omega) (by omega)]
  ring

/-- C4: for a batch size `b` with `1 ≤ b ≤ 9320`, the byte count of the
input allocation and of the host-to-device copy is
`b * (INPUT_H * INPUT_W) * 4 = b * 921600`, the byte count of the output
allocation and of the device-to-host copy is `b * OUTPUT_SIZE * 4 =
b * 921600`: every allocation or copy that `doInference` issues carries that
count, and in a run that returns each copy has the size of the buffer
allocated for its slot. -/
theorem doInference_byte_counts (b : Int) (h1 : 1 ≤ b) (h2 : b ≤ 9320) :
    (inputBytes b : Int) = b * (INPUT_H * INPUT_W) * 4 ∧
    (outputBytes b : Int) = b * OUTPUT_SIZE * 4 ∧
    (inputBytes b : Int) = b * 921600 ∧ (outputBytes b : Int) = b * 921600 ∧
    ∀ (engine : ICudaEngine) (env : CudaEnv),
      (∀ ev, ev ∈ (doInference engine env b).trace → ∀ n, ev.bytes = some n →
        (n : Int) = b * 921600) ∧
      ((doInference engine env b).outcome = Outcome.returned →
        ∃ i o, i ≠ o ∧ (doInference engine env b).trace =
          [Event.cudaMalloc i (b * 921600).toNat 0,
           Event.cudaMalloc o (b * 921600).toNat 0,
           Event.cudaStreamCreate 0,
           Event.cudaMemcpyHostToDevice i (b * 921600).toNat 0,
           Event.enqueue b env.enqueueAccepted,
           Event.cudaMemcpyDeviceToHost o (b * 921600).toNat 0,
           Event.cudaStreamSynchronize env.streamSynchronize,
           Event.cudaStreamDestroy env.streamDestroy,
           Event.cudaFree i 0,
           Event.cudaFree o 0]) := by
  have hin := inputBytes_eq b h1 h2
  have hout := outputBytes_eq b h1 h2
  refine ⟨?_, ?_, hin, hout, fun engine env => ⟨?_, ?_⟩⟩
  · rw [hin]; unfold INPUT_H INPUT_W; ring
  · rw [hout]; unfold OUTPUT_SIZE INPUT_H INPUT_W; ring
  · intro ev hev n hn
    rcases doInference_trace_prefix engine env b with h | ⟨i, _, _, h | ⟨o, _, h⟩⟩
    · rw [h] at hev; simp at hev
    · rw [h] at hev
      simp only [List.mem_singleton] at hev
      subst hev
      simp only [Event.bytes, Option.some.injEq] at hn
      rw [← hn]; exact hin
    · have hmem := h.subset hev
      simp only [inferenceCalls, List.mem_cons, List.mem_singleton, List.mem_nil_iff,
        or_false] at hmem
      rcases hmem with h | h | h | h | h | h | h | h | h | h <;> subst h <;>
        simp only [Event.bytes, Option.some.injEq, reduceCtorEq] at hn <;>
        rw [← hn] <;> assumption
  · intro hret
    obtain ⟨i, o, hi, ho, _, ⟨e1, e2, e3, e4, e5, e6, e7⟩, htr⟩ :=
      doInference_returned engine env b hret
    refine ⟨i, o, scanBindings_indices_ne engine i o hi ho, ?_⟩
    have hin' : inputBytes b = (b * 921600).toNat := by rw [← hin]; simp
    have hout' : outputBytes b = (b * 921600).toNat := by rw [← hout]; simp
    rw [htr, inferenceCalls, e1, e2, e3, e4, e5, e6, e7, hin', hout']

/-- Witness for C4: batch size 1 on the engine with roles input, output. -/
theorem doInference_byte_counts_witness :
    ((inputBytes 1 : Int) = 1 * 921600 ∧ (outputBytes 1 : Int) = 1 * 921600) ∧
    (doInference ⟨[true, false]⟩ CudaEnv.allSucceed 1).trace =
      [Event.cudaMalloc 0 921600 0, Event.cudaMalloc 1 921600 0, Event.cudaStreamCreate 0,
       Event.cudaMemcpyHostToDevice 0 921600 0, Event.enqueue 1 true,
       Event.cudaMemcpyDeviceToHost 1 921600 0, Event.cudaStreamSynchronize 0,
       Event.cudaStreamDestroy 0, Event.cudaFree 0 0, Event.cudaFree 1 0] := by
  have h := doInference_byte_counts 1 (by decide) (by decide)
  refine ⟨⟨h.2.2.1, h.2.2.2.1⟩, ?_⟩
  decide

/-- C5: a run of `doInference` that reaches its end issues exactly these
calls, in this order: allocate the input buffer, allocate the output buffer,
create the stream, copy the input host to device, enqueue for the batch
size, copy the output device to host, synchronise the stream, destroy the
stream, free the input buffer, free the output buffer.  The synchronisation
comes after the device-to-host copy and before every `cudaFree`, and each of
the two buffers is allocated once and freed once. -/
theorem doInference_call_sequence (engine : ICudaEngine) (env : CudaEnv) (batchSize : Int)
    (h : (doInference engine env batchSize).outcome = Outcome.returned) :
    ∃ i o, (scanBindings engine).inputIndex = some i ∧
      (scanBindings engine).outputIndex = some o ∧ i ≠ o ∧
      (doInference engine env batchSize).trace =
        [Event.cudaMalloc i (inputBytes batchSize) 0,
         Event.cudaMalloc o (outputBytes batchSize) 0,
         Event.cudaStreamCreate 0,
         Event.cudaMemcpyHostToDevice i (inputBytes batchSize) 0,
         Event.enqueue batchSize env.enqueueAccepted,
         Event.cudaMemcpyDeviceToHost o (outputBytes batchSize) 0,
         Event.cudaStreamSynchronize env.streamSynchronize,
         Event.cudaStreamDestroy env.streamDestroy,
         Event.cudaFree i 0,
         Event.cudaFree o 0] ∧
      (∃ pre post, (doInference engine env batchSize).trace =
          pre ++ Event.cudaStreamSynchronize env.streamSynchronize :: post ∧
        Event.cudaMemcpyDeviceToHost o (outputBytes batchSize) 0 ∈ pre ∧
        (∀ ev, ev ∈ pre → ev.isFree = false) ∧
        post.filter Event.isFree = [Event.cudaFree i 0, Event.cudaFree o 0]) ∧
      (doInference engine env batchSize).trace.filter Event.isMalloc =
        [Event.cudaMalloc i (inputBytes batchSize) 0,
         Event.cudaMalloc o (outputBytes batchSize) 0] ∧
      (doInference engine env batchSize).trace.filter Event.isFree =
        [Event.cudaFree i 0, Event.cudaFree o 0] := by
  obtain ⟨i, o, hi, ho, _, ⟨e1, e2, e3, e4, e5, e6, e7⟩, htr⟩ :=
    doInference_returned engine env batchSize h
  have htr' : (doInference engine env batchSize).trace =
      [Event.cudaMalloc i (inputBytes batchSize) 0,
       Event.cudaMalloc o (outputBytes batchSize) 0,
       Event.cudaStreamCreate 0,
       Event.cudaMemcpyHostToDevice i (inputBytes batchSize) 0,
       Event.enqueue batchSize env.enqueueAccepted,
       Event.cudaMemcpyDeviceToHost o (outputBytes batchSize) 0,
       Event.cudaStreamSynchronize env.streamSynchronize,
       Event.cudaStreamDestroy env.streamDestroy,
       Event.cudaFree i 0,
       Event.cudaFree o 0] := by
    rw [htr, inferenceCalls, e1, e2, e3, e4, e5, e6, e7]
  refine ⟨i, o, hi, ho, scanBindings_indices_ne engine i o hi ho, htr', ?_, ?_, ?_⟩
  · refine ⟨[Event.cudaMalloc i (inputBytes batchSize) 0,
       Event.cudaMalloc o (outputBytes batchSize) 0,
       Event.cudaStreamCreate 0,
       Event.cudaMemcpyHostToDevice i (inputBytes batchSize) 0,
       Event.enqueue batchSize env.enqueueAccepted,
       Event.cudaMemcpyDeviceToHost o (outputBytes batchSize) 0],
      [Event.cudaStreamDestroy env.streamDestroy, Event.cudaFree i 0, Event.cudaFree o 0],
      ?_, ?_, ?_, ?_⟩
    · rw [htr']; rfl
    · simp
    · intro ev hev
      simp only [List.mem_cons, List.mem_singleton, List.mem_nil_iff, or_false] at hev
      rcases hev with h | h | h | h | h | h <;> subst h <;> rfl
    · simp [List.filter, Event.isFree]
  · rw [htr']; simp [List.filter, Event.isMalloc]
  · rw [htr']; simp [List.filter, Event.isFree]

/-- Witness for C5: every runtime call succeeds on the engine whose binding
0 is the output and whose binding 1 is the input. -/
theorem doInference_call_sequence_witness :
    (doInference ⟨[false, true]⟩ CudaEnv.allSucceed 1).outcome = Outcome.returned ∧
    ∃ i o, (scanBindings ⟨[false, true]⟩).inputIndex = some i ∧
      (scanBindings ⟨[false, true]⟩).outputIndex = some o ∧ i ≠ o ∧
      (doInference ⟨[false, true]⟩ CudaEnv.allSucceed 1).trace =
        [Event.cudaMalloc i (inputBytes 1) 0,
         Event.cudaMalloc o (outputBytes 1) 0,
         Event.cudaStreamCreate 0,
         Event.cudaMemcpyHostToDevice i (inputBytes 1) 0,
         Event.enqueue 1 CudaEnv.allSucceed.enqueueAccepted,
         Event.cudaMemcpyDeviceToHost o (outputBytes 1) 0,
         Event.cudaStreamSynchronize CudaEnv.allSucceed.streamSynchronize,
         Event.cudaStreamDestroy CudaEnv.allSucceed.streamDestroy,
         Event.cudaFree i 0,
         Event.cudaFree o 0] ∧
      (∃ pre post, (doInference ⟨[false, true]⟩ CudaEnv.allSucceed 1).trace =
          pre ++ Event.cudaStreamSynchronize CudaEnv.allSucceed.streamSynchronize :: post ∧
        Event.cudaMemcpyDeviceToHost o (outputBytes 1) 0 ∈ pre ∧
        (∀ ev, ev ∈ pre → ev.isFree = false) ∧
        post.filter Event.isFree = [Event.cudaFree i 0, Event.cudaFree o 0]) ∧
      (doInference ⟨[false, true]⟩ CudaEnv.allSucceed 1).trace.filter Event.isMalloc =
        [Event.cudaMalloc i (inputBytes 1) 0, Event.cudaMalloc o (outputBytes 1) 0] ∧
      (doInference ⟨[false, true]⟩ CudaEnv.allSucceed 1).trace.filter Event.isFree =
        [Event.cudaFree i 0, Event.cudaFree o 0] :=
  ⟨by decide, doInference_call_sequence ⟨[false, true]⟩ CudaEnv.allSucceed 1 (by decide)⟩

/-! ## Failure paths of `doInference` -/

/-- Counterexample to C7: `enqueue` is rejected, and `doInference` goes on
to issue the device-to-host copy and returns. -/
theorem doInference_enqueue_rejected :
    doInference ⟨[true, false]⟩ enqueueRejected 1 =
      ⟨[Event.cudaMalloc 0 921600 0, Event.cudaMalloc 1 921600 0, Event.cudaStreamCreate 0,
        Event.cudaMemcpyHostToDevice 0 921600 0, Event.enqueue 1 false,
        Event.cudaMemcpyDeviceToHost 1 921600 0, Event.cudaStreamSynchronize 0,
        Event.cudaStreamDestroy 0, Event.cudaFree 0 0, Event.cudaFree 1 0],
       Outcome.returned⟩ := by
  decide

/-- C7, amended: `doInference` does not look at the answer of `enqueue`.  A
run in which `enqueue` is rejected ends the way the run with `enqueue`
accepted ends and issues the same calls; when it returns, the
device-to-host copy was issued right after the rejected `enqueue` and the
whole call sequence of a successful run was issued. -/
theorem doInference_ignores_enqueue (engine : ICudaEngine) (env : CudaEnv)
    (batchSize : Int) :
    doInference engine (env.withEnqueue false) batchSize =
      ⟨(doInference engine (env.withEnqueue true) batchSize).trace.map Event.rejectEnqueue,
       (doInference engine (env.withEnqueue true) batchSize).outcome⟩ ∧
    ((doInference engine (env.withEnqueue false) batchSize).outcome = Outcome.returned →
      ∃ i o, i ≠ o ∧ (doInference engine (env.withEnqueue false) batchSize).trace =
        [Event.cudaMalloc i (inputBytes batchSize) 0,
         Event.cudaMalloc o (outputBytes batchSize) 0,
         Event.cudaStreamCreate 0,
         Event.cudaMemcpyHostToDevice i (inputBytes batchSize) 0,
         Event.enqueue batchSize false,
         Event.cudaMemcpyDeviceToHost o (outputBytes batchSize) 0,
         Event.cudaStreamSynchronize env.streamSynchronize,
         Event.cudaStreamDestroy env.streamDestroy,
         Event.cudaFree i 0,
         Event.cudaFree o 0]) := by
  constructor
  · unfold doInference
    by_cases hn : getNbBindings engine = 2
    · simp only [hn, ne_eq, not_true_eq_false, if_false]
      cases (scanBindings engine).inputIndex with
      | none => simp [Run.stop]
      | some i =>
        cases (scanBindings engine).outputIndex with
        | none =>
          simp only [CHECK, Run.emit, Run.stop, CudaEnv.withEnqueue]
          split_ifs <;> simp [Event.rejectEnqueue]
        | some o =>
          simp only [CHECK, Run.emit, Run.stop, CudaEnv.withEnqueue]
          split_ifs <;> simp [Event.rejectEnqueue]
    · simp [hn, Run.stop]
  · intro h
    obtain ⟨i, o, hi, ho, _, ⟨e1, e2, e3, e4, e5, e6, e7⟩, htr⟩ :=
      doInference_returned engine (env.withEnqueue false) batchSize h
    refine ⟨i, o, scanBindings_indices_ne engine i o hi ho, ?_⟩
    rw [htr, inferenceCalls, e1, e2, e3, e4, e5, e6, e7]
    rfl

/-- Witness for C7, amended: the rejected run on the engine with roles
input, output. -/
theorem doInference_ignores_enqueue_witness :
    (doInference ⟨[true, false]⟩ (CudaEnv.allSucceed.withEnqueue false) 1).outcome =
      Outcome.returned ∧
    ∃ i o, i ≠ o ∧
      (doInference ⟨[true, false]⟩ (CudaEnv.allSucceed.withEnqueue false) 1).trace =
        [Event.cudaMalloc i (inputBytes 1) 0,
         Event.cudaMalloc o (outputBytes 1) 0,
         Event.cudaStreamCreate 0,
         Event.cudaMemcpyHostToDevice i (inputBytes 1) 0,
         Event.enqueue 1 false,
         Event.cudaMemcpyDeviceToHost o (outputBytes 1) 0,
         Event.cudaStreamSynchronize CudaEnv.allSucceed.streamSynchronize,
         Event.cudaStreamDestroy CudaEnv.allSucceed.streamDestroy,
         Event.cudaFree i 0,
         Event.cudaFree o 0] :=
  ⟨by decide,
   (doInference_ignores_enqueue ⟨[true, false]⟩ CudaEnv.allSucceed 1).2 (by decide)⟩

/-! ## Binding validation -/

/-- Counterexample to C2: the engine has three bindings; `main` deserialises
it, creates the execution context and calls `doInference`, and the run fails
only there, at the assertion of line 85. -/
theorem main_enters_doInference_with_three_bindings :
    main (mainEnvWith ⟨[true, false, false]⟩) =
      ⟨[Event.createInferBuilder, Event.createNetwork, Event.createParser,
        Event.locateFile true, Event.parseFromFile true, Event.setMaxBatchSize 1,
        Event.setMaxWorkspaceSize 1048576, Event.enableDLA (-1), Event.buildCudaEngine true,
        Event.parserDestroy, Event.engineSerialize, Event.engineDestroy,
        Event.networkDestroy, Event.builderDestroy, Event.hostFileRead, Event.hostFileWrite,
        Event.createInferRuntime true, Event.deserializeCudaEngine true,
        Event.printBinding 0 true, Event.printBinding 1 false, Event.printBinding 2 false,
        Event.getNbLayers, Event.modelStreamDestroy, Event.createExecutionContext true,
        Event.callDoInference],
       Outcome.assertFailed⟩ ∧
    doInference ⟨[true, false, false]⟩ CudaEnv.allSucceed 1 = ⟨[], Outcome.assertFailed⟩ := by
  decide

/-- C2, amended: `main` does not look at the binding count.  For a
deserialised engine whose binding count is not 2, when the steps before it
succeed, `main` creates the execution context and enters `doInference`; the
run fails there, at the assertion `engine.getNbBindings() == 2`, before
`doInference` issues any call. -/
theorem main_defers_binding_count (env : MainEnv) (engine : ICudaEngine)
    (hengine : env.engine = some engine) (hcount : getNbBindings engine ≠ 2)
    (hcompile : (onnxToTRTModel env.compile modelFileName 1 env.dlaCore).outcome =
      Outcome.returned)
    (hstream : env.modelStreamOk = true) (hruntime : env.runtimeOk = true)
    (hcontext : env.contextOk = true) :
    main env =
      ⟨(onnxToTRTModel env.compile modelFileName 1 env.dlaCore).trace ++
        ([Event.hostFileRead, Event.hostFileWrite, Event.createInferRuntime true] ++
          ((if env.dlaCore ≥ 0 then [Event.setDLACore env.dlaCore] else []) ++
            (Event.deserializeCudaEngine true :: (printBindings engine ++
              [Event.getNbLayers, Event.modelStreamDestroy,
               Event.createExecutionContext true, Event.callDoInference])))),
       Outcome.assertFailed⟩ ∧
    doInference engine env.cuda 1 = ⟨[], Outcome.assertFailed⟩ := by
  have hdo : doInference engine env.cuda 1 = ⟨[], Outcome.assertFailed⟩ := by
    unfold doInference
    simp [hcount, Run.stop]
  refine ⟨?_, hdo⟩
  unfold main
  simp [hengine, hcompile, hstream, hruntime, hcontext, hdo, Run.andThen, Run.emit,
    Run.emitAll, Run.stop]

/-- Witness for C2, amended: an engine with a single binding. -/
theorem main_defers_binding_count_witness :
    getNbBindings ⟨[true]⟩ ≠ 2 ∧
    main (mainEnvWith ⟨[true]⟩) =
      ⟨(onnxToTRTModel (mainEnvWith ⟨[true]⟩).compile modelFileName 1
          (mainEnvWith ⟨[true]⟩).dlaCore).trace ++
        ([Event.hostFileRead, Event.hostFileWrite, Event.createInferRuntime true] ++
          ((if (mainEnvWith ⟨[true]⟩).dlaCore ≥ 0 then
              [Event.setDLACore (mainEnvWith ⟨[true]⟩).dlaCore] else []) ++
            (Event.deserializeCudaEngine true :: (printBindings ⟨[true]⟩ ++
              [Event.getNbLayers, Event.modelStreamDestroy,
               Event.createExecutionContext true, Event.callDoInference])))),
       Outcome.assertFailed⟩ ∧
    doInference ⟨[true]⟩ (mainEnvWith ⟨[true]⟩).cuda 1 = ⟨[], Outcome.assertFailed⟩ :=
  ⟨by decide,
   main_defers_binding_count (mainEnvWith ⟨[true]⟩) ⟨[true]⟩ rfl (by decide) (by decide)
     rfl rfl rfl⟩

/-- Counterexample to C3: both bindings of the engine are inputs; the run
passes every assertion, enters `doInference` and issues the first
`cudaMalloc`, for slot 1, with no failure before it. -/
theorem main_allocates_with_two_inputs :
    doInference ⟨[true, true]⟩ CudaEnv.allSucceed 1 =
      ⟨[Event.cudaMalloc 1 921600 0], Outcome.unassignedIndex⟩ ∧
    (main (mainEnvWith ⟨[true, true]⟩)).trace.getLast? = some (Event.cudaMalloc 1 921600 0) ∧
    (main (mainEnvWith ⟨[true, true]⟩)).outcome = Outcome.unassignedIndex := by
  decide

/-- C3, amended: the only validation of the bindings is the assertion
`engine.getNbBindings() == 2` of `doInference`.  An engine whose binding
count is not 2 fails there before any call is issued, so before any device
buffer is allocated.  The roles are not validated: with two bindings the
assertion passes, and when at least one binding is an input (two inputs
included) the first call issued is the `cudaMalloc` for the slot of the last
input binding. -/
theorem doInference_validates_count_only (engine : ICudaEngine) (env : CudaEnv)
    (batchSize : Int) :
    (getNbBindings engine ≠ 2 →
      doInference engine env batchSize = ⟨[], Outcome.assertFailed⟩) ∧
    (getNbBindings engine = 2 →
      (doInference engine env batchSize).outcome ≠ Outcome.assertFailed ∧
      ∀ i, (scanBindings engine).inputIndex = some i →
        (doInference engine env batchSize).trace.head? =
          some (Event.cudaMalloc i (inputBytes batchSize) env.mallocInput)) := by
  constructor
  · intro hn
    unfold doInference
    simp [hn, Run.stop]
  · intro hn
    unfold doInference
    simp only [hn, ne_eq, not_true_eq_false, if_false]
    cases (scanBindings engine).inputIndex with
    | none => simp [Run.stop]
    | some i =>
      cases (scanBindings engine).outputIndex with
      | none =>
        simp only [CHECK, Run.emit, Run.stop]
        split_ifs <;> simp
      | some o =>
        simp only [CHECK, Run.emit, Run.stop]
        split_ifs <;> simp

/-- Witness for C3, amended: three bindings for the first part, two input
bindings for the second. -/
theorem doInference_validates_count_only_witness :
    doInference ⟨[true, false, true]⟩ CudaEnv.allSucceed 1 = ⟨[], Outcome.assertFailed⟩ ∧
    ((doInference ⟨[true, true]⟩ CudaEnv.allSucceed 1).outcome ≠ Outcome.assertFailed ∧
      ∀ i, (scanBindings ⟨[true, true]⟩).inputIndex = some i →
        (doInference ⟨[true, true]⟩ CudaEnv.allSucceed 1).trace.head? =
          some (Event.cudaMalloc i (inputBytes 1) CudaEnv.allSucceed.mallocInput)) :=
  ⟨(doInference_validates_count_only ⟨[true, false, true]⟩ CudaEnv.allSucceed 1).1 (by decide),
   (doInference_validates_count_only ⟨[true, true]⟩ CudaEnv.allSucceed 1).2 (by decide)⟩

/-! ## `onnxToTRTModel`: order of the steps and release of the resources -/

/-- Counterexample to C8: no file exists; builder, network and parser have
all been created when the path is resolved and the run ends as not found. -/
theorem onnxToTRTModel_creates_before_locating :
    onnxToTRTModel noFiles modelFileName 1 (-1) =
      ⟨[Event.createInferBuilder, Event.createNetwork, Event.createParser,
        Event.locateFile false], Outcome.notFound⟩ := by
  decide

/-- C8, amended: in `onnxToTRTModel` the model path is resolved after the
builder, the network and the parser have been created.  For a model file
name absent from every search directory the run ends as not found with all
three created, in this order, before the path was looked up, and none of
them released. -/
theorem onnxToTRTModel_not_found (env : CompileEnv) (modelFile : String)
    (maxBatchSize : Nat) (dlaCore : Int)
    (habsent : ∀ dir, dir ∈ directories → env.fileExists (dir ++ modelFile) = false) :
    onnxToTRTModel env modelFile maxBatchSize dlaCore =
      ⟨[Event.createInferBuilder, Event.createNetwork, Event.createParser,
        Event.locateFile false], Outcome.notFound⟩ := by
  have hnone : locateFile env.fileExists modelFile directories = none := by
    unfold locateFile
    rw [List.find?_eq_none]
    intro x hx
    obtain ⟨dir, hdir, rfl⟩ := List.mem_map.mp hx
    simp [habsent dir hdir]
  unfold onnxToTRTModel
  simp [hnone, Run.emit, Run.stop]

/-- Witness for C8, amended: no file exists. -/
theorem onnxToTRTModel_not_found_witness :
    (∀ dir, dir ∈ directories → noFiles.fileExists (dir ++ modelFileName) = false) ∧
    onnxToTRTModel noFiles modelFileName 1 (-1) =
      ⟨[Event.createInferBuilder, Event.createNetwork, Event.createParser,
        Event.locateFile false], Outcome.notFound⟩ :=
  ⟨fun _ _ => rfl, onnxToTRTModel_not_found noFiles modelFileName 1 (-1) (fun _ _ => rfl)⟩

/-- Counterexample to C9: the parser rejects the file; the run ends with
`exit(EXIT_FAILURE)` and neither the parser nor the network nor the builder
has been released. -/
theorem onnxToTRTModel_exit_releases_nothing :
    onnxToTRTModel parserRejects modelFileName 1 (-1) =
      ⟨[Event.createInferBuilder, Event.createNetwork, Event.createParser,
        Event.locateFile true, Event.parseFromFile false, Event.logError],
       Outcome.exited⟩ ∧
    (onnxToTRTModel parserRejects modelFileName 1 (-1)).trace.count Event.parserDestroy = 0 ∧
    (onnxToTRTModel parserRejects modelFileName 1 (-1)).trace.count Event.networkDestroy = 0 ∧
    (onnxToTRTModel parserRejects modelFileName 1 (-1)).trace.count Event.builderDestroy = 0 := by
  decide

/-- C9, amended: a run of `onnxToTRTModel` that returns has released the
parser, the network and the builder exactly once each; a run that ends in
another way (file not found, parser rejection, no engine built) has released
none of them.  The run returns exactly when the file is found, the parser
accepts it and the builder produces an engine. -/
theorem onnxToTRTModel_releases_on_return (env : CompileEnv) (modelFile : String)
    (maxBatchSize : Nat) (dlaCore : Int) :
    ((onnxToTRTModel env modelFile maxBatchSize dlaCore).trace.count Event.parserDestroy =
      if (onnxToTRTModel env modelFile maxBatchSize dlaCore).outcome = Outcome.returned
      then 1 else 0) ∧
    ((onnxToTRTModel env modelFile maxBatchSize dlaCore).trace.count Event.networkDestroy =
      if (onnxToTRTModel env modelFile maxBatchSize dlaCore).outcome = Outcome.returned
      then 1 else 0) ∧
    ((onnxToTRTModel env modelFile maxBatchSize dlaCore).trace.count Event.builderDestroy =
      if (onnxToTRTModel env modelFile maxBatchSize dlaCore).outcome = Outcome.returned
      then 1 else 0) ∧
    ((onnxToTRTModel env modelFile maxBatchSize dlaCore).outcome = Outcome.returned ↔
      (locateFile env.fileExists modelFile directories).isSome = true ∧
        env.parseOk = true ∧ env.buildOk = true) := by
  unfold onnxToTRTModel
  cases locateFile env.fileExists modelFile directories with
  | none => simp [Run.emit, Run.stop, List.count_cons]
  | some path =>
    cases hp : env.parseOk <;> cases hb : env.buildOk <;>
      simp [Run.emit, Run.stop, List.count_cons]

/-- Witness for C9, amended: the returning run and the rejected run. -/
theorem onnxToTRTModel_releases_on_return_witness :
    (onnxToTRTModel (mainEnvWith ⟨[true, false]⟩).compile modelFileName 1 (-1)).trace.count
      Event.parserDestroy = 1 ∧
    (onnxToTRTModel parserRejects modelFileName 1 (-1)).trace.count Event.networkDestroy = 0 := by
  have h1 := onnxToTRTModel_releases_on_return (mainEnvWith ⟨[true, false]⟩).compile
    modelFileName 1 (-1)
  have h2 := onnxToTRTModel_releases_on_return parserRejects modelFileName 1 (-1)
  exact ⟨h1.1.trans (by decide), h2.2.1.trans (by decide)⟩

end TensorrtOnnx
